import Mathlib

/-!
Shallow embedding of `src/core/image_search/image_search.py` (project iris).

The module under verification provides template-matching search helpers:
`is_pattern_size_correct`, `match_template`, `match_template_multiple`,
`image_find` and `image_vanish`.  External collaborators (OpenCV, numpy,
the screenshot subsystem, the pattern assets and the wall clock) are
modelled as explicit inputs:

* a **pattern** carries its similarity threshold, its pixel size and four
  abstract image handles (the accessors `get_color_image`,
  `get_gray_image`, `get_rgb_array`, `get_gray_array`);
* a **capture** outcome is `PyResult`-style: either a screenshot (again
  four abstract image handles) or the `ScreenshotError` raised by the
  capture layer;
* the **correlation engine** (`cv2.matchTemplate`) is an explicit function
  from a haystack and needle image to a score surface, a list of rows of
  rational scores; `cv2.minMaxLoc` is modelled faithfully as the row-major
  scan keeping the first strict extremum, and numpy item assignment
  `res[y][x] = v` is modelled with Python index semantics: indices in
  `[0, len)` are direct, indices in `[-len, 0)` wrap around to the end,
  anything else raises `IndexError` (which the source swallows);
* the **clock** is a stream of readings `Nat → ℚ` consumed by the
  successive `datetime.datetime.now()` calls, and the unbounded Python
  `while` loops are given explicit fuel, `none` meaning that the loop has
  not finished within the given fuel.

Python exceptions that escape a function are modelled by `PyResult.raised`
(`AttributeError` from `None.width`, `TypeError` from
`timedelta(seconds=None)`).
-/

namespace IrisSpec

/-- Python exceptions that the embedded code can let escape. -/
inductive PyErr where
  | attributeError
  | typeError
deriving DecidableEq, Repr

/-- Outcome of a Python call: a returned value or an escaped exception. -/
inductive PyResult (α : Type) where
  | ok (val : α)
  | raised (e : PyErr)
deriving DecidableEq, Repr

/-- The error raised by the screenshot collaborator (`core.errors.ScreenshotError`). -/
inductive ScreenshotError where
  | mk
deriving DecidableEq, Repr

/-- `core.helpers.location.Location`: an integer screen point. -/
structure Location where
  x : Int
  y : Int
deriving DecidableEq, Repr

/-- `core.helpers.rectangle.Rectangle`: a search region. -/
structure Rectangle where
  x : Int
  y : Int
  width : Nat
  height : Nat
deriving DecidableEq, Repr

/-- An abstract pixel array handle: an identity plus pixel dimensions. -/
structure Img where
  ident : Nat
  width : Nat
  height : Nat
deriving DecidableEq, Repr

/-- `core.image_search.pattern.Pattern`: similarity threshold, size and the
four pixel-array accessors. -/
structure Pattern where
  similarity : ℚ
  width : Nat
  height : Nat
  get_color_image : Img
  get_gray_image : Img
  get_rgb_array : Img
  get_gray_array : Img
deriving DecidableEq, Repr

/-- `Pattern.get_size()` returns the `(width, height)` pair. -/
def Pattern.get_size (p : Pattern) : Nat × Nat := (p.width, p.height)

/-- `core.screen.screenshot_image.ScreenshotImage`: the captured stack image,
exposing the same four accessors as `Pattern`. -/
structure ScreenshotImage where
  get_color_image : Img
  get_gray_image : Img
  get_rgb_array : Img
  get_gray_array : Img
deriving DecidableEq, Repr

/-- A `cv2.matchTemplate` score surface: a list of rows of scores. -/
abbrev Surface := List (List ℚ)

/-! ## The cv2 / numpy model -/

/-- OpenCV template-matching method codes. -/
def cv2_TM_SQDIFF : Nat := 0

/-- OpenCV code for `cv2.TM_SQDIFF_NORMED`. -/
def cv2_TM_SQDIFF_NORMED : Nat := 1

/-- OpenCV code for `cv2.TM_CCOEFF_NORMED`. -/
def cv2_TM_CCOEFF_NORMED : Nat := 5

/-- `FIND_METHOD = cv2.TM_CCOEFF_NORMED` (line 29 of the source). -/
def FIND_METHOD : Nat := cv2_TM_CCOEFF_NORMED

/-- Cells of one surface row, row index `y`, first cell at column `x0`:
each cell is `(value, x, y)`. -/
def rowCells (y : Nat) : Nat → List ℚ → List (ℚ × Nat × Nat)
  | _, [] => []
  | x0, v :: vs => (v, x0, y) :: rowCells y (x0 + 1) vs

/-- Cells of a surface, first row index `y0`, in row-major scan order. -/
def surfaceCellsAux : Nat → Surface → List (ℚ × Nat × Nat)
  | _, [] => []
  | y0, row :: rows => rowCells y0 0 row ++ surfaceCellsAux (y0 + 1) rows

/-- All cells of a surface in the row-major order scanned by `cv2.minMaxLoc`. -/
def surfaceCells (res : Surface) : List (ℚ × Nat × Nat) :=
  surfaceCellsAux 0 res

/-- Read cell `(row Y, column X)` of a surface. -/
def getCell (res : Surface) (Y X : Nat) : Option ℚ :=
  (res.get? Y).bind (fun row => row.get? X)

/-- One scan step of the running maximum: strictly greater values replace the
current best, so the first occurrence of the maximum wins (as in OpenCV). -/
def maxCellStep (best c : ℚ × Nat × Nat) : ℚ × Nat × Nat :=
  if best.1 < c.1 then c else best

/-- One scan step of the running minimum. -/
def minCellStep (best c : ℚ × Nat × Nat) : ℚ × Nat × Nat :=
  if c.1 < best.1 then c else best

/-- The maximum cell `(value, x, y)` of a surface (first occurrence in
row-major order); `(0, 0, 0)` for an empty surface. -/
def maxCell (res : Surface) : ℚ × Nat × Nat :=
  match surfaceCells res with
  | [] => (0, 0, 0)
  | c :: cs => cs.foldl maxCellStep c

/-- The minimum cell of a surface, same conventions as `maxCell`. -/
def minCell (res : Surface) : ℚ × Nat × Nat :=
  match surfaceCells res with
  | [] => (0, 0, 0)
  | c :: cs => cs.foldl minCellStep c

/-- `cv2.minMaxLoc(res)`: `(min_val, max_val, min_loc, max_loc)` with
locations as `(x, y)`. -/
def minMaxLoc (res : Surface) : ℚ × ℚ × (Nat × Nat) × (Nat × Nat) :=
  ((minCell res).1, (maxCell res).1,
   ((minCell res).2.1, (minCell res).2.2),
   ((maxCell res).2.1, (maxCell res).2.2))

/-- The global maximum score of a surface. -/
def maxScore (res : Surface) : ℚ := (maxCell res).1

/-- Python sequence index resolution: `some` of the effective index for an
index in `[-len, len)` (negative indices wrap), `none` for `IndexError`. -/
def resolveIdx (len : Nat) (i : Int) : Option Nat :=
  if 0 ≤ i ∧ i < (len : Int) then some i.toNat
  else if -(len : Int) ≤ i ∧ i < 0 then some ((len : Int) + i).toNat
  else none

/-- Resolve the pair of indices of the assignment `res[y][x]`: `none` when
Python would raise `IndexError` (caught by the source), otherwise the
effective `(row, column)` pair. -/
def resolvePair (res : Surface) (y x : Int) : Option (Nat × Nat) :=
  (resolveIdx res.length y).bind fun yi =>
    (res.get? yi).bind fun row =>
      (resolveIdx row.length x).map fun xi => (yi, xi)

/-- The numpy assignment `res[y][x] = v` guarded by `try ... except IndexError:
pass`: write through the resolved indices, or leave the surface unchanged. -/
def setCell (res : Surface) (y x : Int) (v : ℚ) : Surface :=
  match resolvePair res y x with
  | none => res
  | some (yi, xi) =>
    match res.get? yi with
    | none => res
    | some row => res.set yi (row.set xi v)

/-- Python `int()` truncation (toward zero) of `n / 2`; `int(s - w/2)` in the
source is `truncHalf (2*s - w)`. -/
def truncHalf (n : Int) : Int :=
  if 0 ≤ n then ((n.toNat / 2 : Nat) : Int) else -(((-n).toNat / 2 : Nat) : Int)

/-- Python `range(a, b)` over integers. -/
def intRange (a b : Int) : List Int :=
  (List.range (b - a).toNat).map (fun (i : Nat) => a + (i : Int))

/-! ## The embedded source functions -/

/-- Lines 32-45, with `region` optional as at its call sites: on a null
region the attribute access `region.width` raises `AttributeError`;
otherwise compare the pattern dimensions against the region dimensions. -/
def is_pattern_size_correct (pattern : Pattern) (region : Option Rectangle) :
    PyResult Bool :=
  match region with
  | none => PyResult.raised PyErr.attributeError
  | some region =>
    let p := pattern.get_size
    let p_width := p.1
    let p_height := p.2
    let r_width := region.width
    let r_height := region.height
    let is_correct := true
    let is_correct := if p_width > r_width then false else is_correct
    let is_correct := if p_height > r_height then false else is_correct
    PyResult.ok is_correct

/-- Line 60: the needle of `match_template`. -/
def mt_needle (pattern : Pattern) : Img :=
  if pattern.similarity = 99 / 100 then pattern.get_color_image
  else pattern.get_gray_image

/-- Line 61: the haystack of `match_template`. -/
def mt_haystack (pattern : Pattern) (stack_image : ScreenshotImage) : Img :=
  if pattern.similarity = 99 / 100 then stack_image.get_color_image
  else stack_image.get_gray_image

/-- Line 100: the needle of `match_template_multiple`. -/
def mtm_needle (pattern : Pattern) : Img :=
  if pattern.similarity = 99 / 100 then pattern.get_rgb_array
  else pattern.get_gray_array

/-- Line 101: the haystack of `match_template_multiple`. -/
def mtm_haystack (pattern : Pattern) (stack_image : ScreenshotImage) : Img :=
  if pattern.similarity = 99 / 100 then stack_image.get_rgb_array
  else stack_image.get_gray_array

/-- Lines 48-84, `match_template`.  `engine` stands for
`cv2.matchTemplate(·, ·, FIND_METHOD)` and `capture` for the outcome of
`ScreenshotImage(region=region)` (the only statement that can raise
`ScreenshotError`, caught at line 75). -/
def match_template (engine : Img → Img → Surface) (pattern : Pattern)
    (region : Option Rectangle)
    (capture : Except ScreenshotError ScreenshotImage) : Location :=
  let position :=
    match capture with
    | Except.error _ => Location.mk (-1) (-1)
    | Except.ok stack_image =>
      let precision := pattern.similarity
      let needle := mt_needle pattern
      let haystack := mt_haystack pattern stack_image
      let res := engine haystack needle
      let mml := minMaxLoc res
      let max_val := mml.2.1
      let max_loc := mml.2.2.2
      if max_val < precision then Location.mk (-1) (-1)
      else Location.mk max_loc.1 max_loc.2
  if position.x = -1 ∨ position.y = -1 then position
  else
    match region with
    | some region => Location.mk (position.x + region.x) (position.y + region.y)
    | none => position

/-- Lines 116-121: the suppression step around a found match at `(sx, sy)`,
a double loop of guarded numpy writes of the sentinel score. -/
def suppress (res : Surface) (sx sy w h : Nat) : Surface :=
  (intRange (truncHalf (2 * sx - w)) (truncHalf (2 * sx + w))).foldl
    (fun acc x =>
      (intRange (truncHalf (2 * sy - h)) (truncHalf (2 * sy + h))).foldl
        (fun acc2 y => setCell acc2 y x (-10000)) acc)
    res

/-- Lines 106-126: the `while True` extraction loop of
`match_template_multiple`, with explicit fuel; `none` models a loop that
has not terminated within the fuel. -/
def multiLoop (precision threshold : ℚ) (pattern : Pattern) :
    Nat → Surface → List Location → Option (List Location)
  | 0, _, _ => none
  | fuel + 1, res, final_matches =>
    let mml := minMaxLoc res
    let max_val := mml.2.1
    let min_loc := mml.2.2.1
    let best_match := mml.2.2.2
    let top_left :=
      if FIND_METHOD = cv2_TM_SQDIFF ∨ FIND_METHOD = cv2_TM_SQDIFF_NORMED then
        min_loc
      else best_match
    if precision > max_val ∧ max_val > threshold then
      let sx := top_left.1
      let sy := top_left.2
      let wh := pattern.get_size
      let res2 := suppress res sx sy wh.1 wh.2
      multiLoop precision threshold pattern fuel res2
        (final_matches ++ [Location.mk top_left.1 top_left.2])
    else some final_matches

/-- Lines 87-129, `match_template_multiple`; same collaborator conventions
as `match_template`.  The `region` parameter is consumed only by the
capture collaborator, which is passed here as its outcome. -/
def match_template_multiple (engine : Img → Img → Surface) (pattern : Pattern)
    (region : Option Rectangle)
    (capture : Except ScreenshotError ScreenshotImage)
    (threshold : ℚ) (fuel : Nat) : Option (List Location) :=
  match capture with
  | Except.error _ => some []
  | Except.ok stack_image =>
    let precision := pattern.similarity
    let needle := mtm_needle pattern
    let haystack := mtm_haystack pattern stack_image
    let res := engine haystack needle
    multiLoop precision threshold pattern fuel res []

/-- Lines 149-157: the polling loop of `image_find`.  `captures k` is the
`k`-th capture outcome, `clock k` the `k`-th `datetime.now()` reading after
the initial one. -/
def findLoop (engine : Img → Img → Surface) (pattern : Pattern)
    (region : Option Rectangle)
    (captures : Nat → Except ScreenshotError ScreenshotImage)
    (clock : Nat → ℚ) (end_time : ℚ) :
    Nat → Nat → ℚ → Option (Option Location)
  | 0, _, _ => none
  | fuel + 1, k, start_time =>
    if start_time < end_time then
      let pos := match_template engine pattern region (captures k)
      let start_time2 := clock (k + 1)
      if pos.x ≠ -1 then some (some pos)
      else findLoop engine pattern region captures clock end_time fuel (k + 1) start_time2
    else some none

/-- Lines 132-157, `image_find`.  `auto_wait_timeout` stands for
`Settings.auto_wait_timeout`; `clock 0` is the initial
`datetime.datetime.now()` reading. -/
def image_find (pattern : Pattern) (timeout : Option ℚ) (region : Option Rectangle)
    (engine : Img → Img → Surface)
    (captures : Nat → Except ScreenshotError ScreenshotImage)
    (clock : Nat → ℚ) (auto_wait_timeout : ℚ) (fuel : Nat) :
    Option (PyResult (Option Location)) :=
  match is_pattern_size_correct pattern region with
  | PyResult.raised e => some (PyResult.raised e)
  | PyResult.ok false => some (PyResult.ok none)
  | PyResult.ok true =>
    let timeout2 := timeout.getD auto_wait_timeout
    let start_time := clock 0
    let end_time := start_time + timeout2
    match findLoop engine pattern region captures clock end_time fuel 0 start_time with
    | none => none
    | some r => some (PyResult.ok r)

/-- Lines 176-182: the polling loop of `image_vanish`. -/
def vanishLoop (engine : Img → Img → Surface) (pattern : Pattern)
    (region : Option Rectangle)
    (captures : Nat → Except ScreenshotError ScreenshotImage)
    (clock : Nat → ℚ) (end_time : ℚ) :
    Nat → Nat → Bool → ℚ → Option (Option Bool)
  | 0, _, _, _ => none
  | fuel + 1, k, pattern_found, start_time =>
    if pattern_found = true ∧ start_time < end_time then
      let image_found := match_template engine pattern region (captures k)
      let pattern_found2 := decide (image_found.x ≠ -1) && decide (image_found.y ≠ -1)
      vanishLoop engine pattern region captures clock end_time fuel (k + 1)
        pattern_found2 (clock (k + 1))
    else some (if pattern_found then none else some true)

/-- Lines 160-184, `image_vanish`.  Unlike `image_find`, a null `timeout`
is not defaulted: it reaches `datetime.timedelta(seconds=None)`, which
raises `TypeError`. -/
def image_vanish (pattern : Pattern) (timeout : Option ℚ) (region : Option Rectangle)
    (engine : Img → Img → Surface)
    (captures : Nat → Except ScreenshotError ScreenshotImage)
    (clock : Nat → ℚ) (fuel : Nat) : Option (PyResult (Option Bool)) :=
  match is_pattern_size_correct pattern region with
  | PyResult.raised e => some (PyResult.raised e)
  | PyResult.ok false => some (PyResult.ok none)
  | PyResult.ok true =>
    match timeout with
    | none => some (PyResult.raised PyErr.typeError)
    | some t =>
      let start_time := clock 0
      let end_time := start_time + t
      match vanishLoop engine pattern region captures clock end_time fuel 0 true start_time with
      | none => none
      | some r => some (PyResult.ok r)

/-! ## Basic lemmas about the cv2 / numpy model -/

theorem mem_intRange {a b x : Int} : x ∈ intRange a b ↔ a ≤ x ∧ x < b := by
  unfold intRange
  simp only [List.mem_map, List.mem_range]
  constructor
  · rintro ⟨i, hi, rfl⟩
    omega
  · rintro ⟨h1, h2⟩
    exact ⟨(x - a).toNat, by omega, by omega⟩

theorem resolveIdx_lt {len : Nat} {i : Int} {j : Nat}
    (h : resolveIdx len i = some j) : j < len := by
  unfold resolveIdx at h
  split at h
  · next hc => simp only [Option.some.injEq] at h; omega
  · split at h
    · next hc => simp only [Option.some.injEq] at h; omega
    · exact Option.noConfusion h

theorem resolveIdx_coe {len j : Nat} (h : j < len) :
    resolveIdx len (j : Int) = some j := by
  unfold resolveIdx
  rw [if_pos ⟨by omega, by omega⟩]
  simp

theorem resolveIdx_of_nonneg {len : Nat} {i : Int} {j : Nat} (hi : 0 ≤ i)
    (h : resolveIdx len i = some j) : (j : Int) = i := by
  unfold resolveIdx at h
  split at h
  · next hc => simp only [Option.some.injEq] at h; omega
  · split at h
    · next hc => omega
    · exact Option.noConfusion h

theorem mem_rowCells {y : Nat} : ∀ (l : List ℚ) (x0 : Nat) (v : ℚ) (x yy : Nat),
    (v, x, yy) ∈ rowCells y x0 l ↔ yy = y ∧ x0 ≤ x ∧ l.get? (x - x0) = some v := by
  intro l
  induction l with
  | nil => intro x0 v x yy; simp [rowCells]
  | cons hd tl ih =>
    intro x0 v x yy
    simp only [rowCells, List.mem_cons, ih, Prod.mk.injEq]
    constructor
    · rintro (⟨rfl, rfl, rfl⟩ | ⟨rfl, h1, h2⟩)
      · refine ⟨rfl, le_refl _, ?_⟩
        simp
      · refine ⟨rfl, by omega, ?_⟩
        have hx : x - x0 = (x - (x0 + 1)) + 1 := by omega
        rw [hx, List.get?_cons_succ]
        exact h2
    · rintro ⟨rfl, h1, h2⟩
      rcases Nat.eq_or_lt_of_le h1 with heq | hlt
      · left
        have hx0 : x - x0 = 0 := by omega
        rw [hx0, List.get?_cons_zero] at h2
        simp only [Option.some.injEq] at h2
        exact ⟨h2.symm, heq.symm, rfl⟩
      · right
        refine ⟨rfl, by omega, ?_⟩
        have hx : x - x0 = (x - (x0 + 1)) + 1 := by omega
        rw [hx, List.get?_cons_succ] at h2
        exact h2

theorem mem_surfaceCellsAux : ∀ (rows : Surface) (y0 : Nat) (v : ℚ) (x yy : Nat),
    (v, x, yy) ∈ surfaceCellsAux y0 rows ↔
      y0 ≤ yy ∧ ((rows.get? (yy - y0)).bind (fun row => row.get? x)) = some v := by
  intro rows
  induction rows with
  | nil => intro y0 v x yy; simp [surfaceCellsAux]
  | cons row rows ih =>
    intro y0 v x yy
    simp only [surfaceCellsAux, List.mem_append, mem_rowCells, ih]
    constructor
    · rintro (⟨rfl, h1, h2⟩ | ⟨h1, h2⟩)
      · refine ⟨le_refl _, ?_⟩
        have hy : yy - yy = 0 := by omega
        rw [hy, List.get?_cons_zero]
        simpa using h2
      · refine ⟨by omega, ?_⟩
        have hy : yy - y0 = (yy - (y0 + 1)) + 1 := by omega
        rw [hy, List.get?_cons_succ]
        exact h2
    · rintro ⟨h1, h2⟩
      rcases Nat.eq_or_lt_of_le h1 with heq | hlt
      · left
        have hy : yy - y0 = 0 := by omega
        rw [hy, List.get?_cons_zero] at h2
        refine ⟨heq.symm, by omega, ?_⟩
        simpa using h2
      · right
        have hy : yy - y0 = (yy - (y0 + 1)) + 1 := by omega
        rw [hy, List.get?_cons_succ] at h2
        exact ⟨by omega, h2⟩

theorem mem_surfaceCells {res : Surface} {v : ℚ} {x y : Nat} :
    (v, x, y) ∈ surfaceCells res ↔ getCell res y x = some v := by
  unfold surfaceCells getCell
  rw [mem_surfaceCellsAux]
  simp

theorem getCell_eq_some {res : Surface} {Y X : Nat} {v : ℚ} :
    getCell res Y X = some v ↔
      ∃ row, res.get? Y = some row ∧ row.get? X = some v := by
  unfold getCell
  cases h : res.get? Y with
  | none => simp
  | some row => simp

theorem lt_length_of_get?_eq_some {α : Type} {l : List α} {n : Nat} {a : α}
    (h : l.get? n = some a) : n < l.length := by
  by_contra hc
  push_neg at hc
  rw [List.get?_eq_none.mpr hc] at h
  exact Option.noConfusion h

theorem foldl_maxCellStep_mem : ∀ (cs : List (ℚ × Nat × Nat)) (c : ℚ × Nat × Nat),
    cs.foldl maxCellStep c ∈ c :: cs := by
  intro cs
  induction cs with
  | nil => intro c; simp
  | cons d cs ih =>
    intro c
    simp only [List.foldl_cons]
    have hstep : maxCellStep c d = d ∨ maxCellStep c d = c := by
      unfold maxCellStep; split
      · exact Or.inl rfl
      · exact Or.inr rfl
    rcases List.mem_cons.mp (ih (maxCellStep c d)) with h1 | h1
    · rw [h1]
      rcases hstep with h2 | h2 <;> rw [h2] <;> simp
    · simp [h1]

theorem foldl_maxCellStep_le : ∀ (cs : List (ℚ × Nat × Nat)) (c e : ℚ × Nat × Nat),
    e ∈ c :: cs → e.1 ≤ (cs.foldl maxCellStep c).1 := by
  intro cs
  induction cs with
  | nil =>
    intro c e he
    simp only [List.mem_singleton] at he
    simp [he]
  | cons d cs ih =>
    intro c e he
    simp only [List.foldl_cons]
    have hstep : c.1 ≤ (maxCellStep c d).1 ∧ d.1 ≤ (maxCellStep c d).1 := by
      unfold maxCellStep
      split
      · next h => exact ⟨le_of_lt h, le_refl _⟩
      · next h => exact ⟨le_refl _, le_of_not_lt h⟩
    rcases List.mem_cons.mp he with h1 | he2
    · rw [h1]
      exact le_trans hstep.1 (ih (maxCellStep c d) _ (List.mem_cons_self _ _))
    · rcases List.mem_cons.mp he2 with h1 | he3
      · rw [h1]
        exact le_trans hstep.2 (ih (maxCellStep c d) _ (List.mem_cons_self _ _))
      · exact ih (maxCellStep c d) e (List.mem_cons_of_mem _ he3)

theorem maxCell_mem {res : Surface} (h : surfaceCells res ≠ []) :
    maxCell res ∈ surfaceCells res := by
  unfold maxCell
  cases hc : surfaceCells res with
  | nil => exact absurd hc h
  | cons c cs => exact foldl_maxCellStep_mem cs c

theorem le_maxScore {res : Surface} {v : ℚ} {x y : Nat}
    (h : getCell res y x = some v) : v ≤ maxScore res := by
  have hm : (v, x, y) ∈ surfaceCells res := mem_surfaceCells.mpr h
  unfold maxScore maxCell
  cases hc : surfaceCells res with
  | nil =>
    rw [hc] at hm
    exact absurd hm (List.not_mem_nil _)
  | cons c cs =>
    rw [hc] at hm
    exact foldl_maxCellStep_le cs c _ hm

theorem maxCell_getCell {res : Surface} (h : surfaceCells res ≠ []) :
    getCell res (maxCell res).2.2 (maxCell res).2.1 = some (maxCell res).1 := by
  have hm := maxCell_mem h
  exact mem_surfaceCells.mp hm

theorem surfaceCells_ne_nil {res : Surface} {Y X : Nat} {v : ℚ}
    (h : getCell res Y X = some v) : surfaceCells res ≠ [] :=
  List.ne_nil_of_mem (mem_surfaceCells.mpr h)

theorem minMaxLoc_max_val (res : Surface) : (minMaxLoc res).2.1 = maxScore res := rfl

theorem minMaxLoc_max_loc (res : Surface) :
    (minMaxLoc res).2.2.2 = ((maxCell res).2.1, (maxCell res).2.2) := rfl

theorem FIND_METHOD_not_sqdiff :
    ¬ (FIND_METHOD = cv2_TM_SQDIFF ∨ FIND_METHOD = cv2_TM_SQDIFF_NORMED) := by
  decide

/-! ## Frame lemmas for the suppression writes -/

theorem get?_set_self {α : Type} (l : List α) (n : Nat) (a : α) (hn : n < l.length) :
    (l.set n a).get? n = some a := by
  rw [List.get?_eq_getElem?, List.getElem?_set_self', List.getElem?_eq_getElem hn]
  rfl

theorem get?_set_of_ne {α : Type} (l : List α) {n m : Nat} (a : α) (h : m ≠ n) :
    (l.set m a).get? n = l.get? n := by
  rw [List.get?_eq_getElem?, List.getElem?_set_ne h, List.get?_eq_getElem?]

theorem resolvePair_eq_some {res : Surface} {y x : Int} {Yi Xi : Nat} :
    resolvePair res y x = some (Yi, Xi) ↔
      ∃ row, resolveIdx res.length y = some Yi ∧ res.get? Yi = some row ∧
        resolveIdx row.length x = some Xi := by
  unfold resolvePair
  simp only [Option.bind_eq_some, Option.map_eq_some', Prod.mk.injEq]
  constructor
  · rintro ⟨yi, h1, row, h2, xi, h3, rfl, rfl⟩
    exact ⟨row, h1, h2, h3⟩
  · rintro ⟨row, h1, h2, h3⟩
    exact ⟨Yi, h1, row, h2, Xi, h3, rfl, rfl⟩

theorem setCell_of_resolvePair_none {res : Surface} {y x : Int} (v : ℚ)
    (h : resolvePair res y x = none) : setCell res y x v = res := by
  unfold setCell
  rw [h]

theorem setCell_of_resolvePair_some {res : Surface} {y x : Int} {Yi Xi : Nat}
    {row : List ℚ} (v : ℚ) (h : resolvePair res y x = some (Yi, Xi))
    (hrow : res.get? Yi = some row) :
    setCell res y x v = res.set Yi (row.set Xi v) := by
  unfold setCell
  rw [h]
  show (match res.get? Yi with
        | none => res
        | some row => res.set Yi (row.set Xi v)) = res.set Yi (row.set Xi v)
  rw [hrow]

theorem setCell_length (res : Surface) (y x : Int) (v : ℚ) :
    (setCell res y x v).length = res.length := by
  cases hp : resolvePair res y x with
  | none => rw [setCell_of_resolvePair_none v hp]
  | some p =>
    obtain ⟨Yi, Xi⟩ := p
    obtain ⟨row, h1, h2, h3⟩ := resolvePair_eq_some.mp hp
    rw [setCell_of_resolvePair_some v hp h2, List.length_set]

theorem setCell_get?_length (res : Surface) (y x : Int) (v : ℚ) (i : Nat) :
    ((setCell res y x v).get? i).map List.length = (res.get? i).map List.length := by
  cases hp : resolvePair res y x with
  | none => rw [setCell_of_resolvePair_none v hp]
  | some p =>
    obtain ⟨Yi, Xi⟩ := p
    obtain ⟨row, h1, h2, h3⟩ := resolvePair_eq_some.mp hp
    rw [setCell_of_resolvePair_some v hp h2]
    by_cases hiy : i = Yi
    · subst hiy
      have hYlt := lt_length_of_get?_eq_some h2
      rw [get?_set_self _ _ _ hYlt, h2]
      simp [List.length_set]
    · rw [get?_set_of_ne _ _ (fun hh => hiy hh.symm)]

theorem resolvePair_setCell (res : Surface) (y x y2 x2 : Int) (v : ℚ) :
    resolvePair (setCell res y x v) y2 x2 = resolvePair res y2 x2 := by
  unfold resolvePair
  rw [setCell_length]
  cases h1 : resolveIdx res.length y2 with
  | none => rfl
  | some yi =>
    simp only [Option.some_bind]
    have hlen := setCell_get?_length res y x v yi
    cases h2 : res.get? yi with
    | none =>
      rw [h2] at hlen
      cases h3 : (setCell res y x v).get? yi with
      | none => rfl
      | some row2 =>
        rw [h3] at hlen
        exact Option.noConfusion hlen
    | some row =>
      cases h3 : (setCell res y x v).get? yi with
      | none =>
        rw [h2, h3] at hlen
        exact Option.noConfusion hlen
      | some row2 =>
        rw [h2, h3] at hlen
        simp only [Option.map_some', Option.some.injEq] at hlen
        simp only [Option.some_bind, hlen]

theorem getCell_setCell (res : Surface) (y x : Int) (v : ℚ) (Y X : Nat) :
    getCell (setCell res y x v) Y X =
      if resolvePair res y x = some (Y, X) then some v else getCell res Y X := by
  cases hp : resolvePair res y x with
  | none =>
    rw [setCell_of_resolvePair_none v hp, if_neg (fun hc => Option.noConfusion hc)]
  | some p =>
    obtain ⟨Yi, Xi⟩ := p
    obtain ⟨row, h1, h2, h3⟩ := resolvePair_eq_some.mp hp
    rw [setCell_of_resolvePair_some v hp h2]
    unfold getCell
    by_cases hY : Y = Yi
    · subst hY
      have hYlt := lt_length_of_get?_eq_some h2
      rw [get?_set_self _ _ _ hYlt]
      simp only [Option.some_bind]
      by_cases hX : X = Xi
      · subst hX
        have hlt := resolveIdx_lt h3
        rw [if_pos rfl, get?_set_self _ _ _ hlt]
      · rw [get?_set_of_ne _ _ (fun hh => hX hh.symm),
          if_neg (by
            simp only [Option.some.injEq, Prod.mk.injEq, true_and]
            exact fun hh => hX hh.symm), h2]
        simp
    · rw [get?_set_of_ne _ _ (fun hh => hY hh.symm),
        if_neg (by
          simp only [Option.some.injEq, Prod.mk.injEq]
          exact fun hh => hY hh.1.symm)]

theorem foldl_nested_eq_bind {α β γ : Type} (f : γ → α → β → γ) :
    ∀ (xs : List α) (ys : List β) (init : γ),
    xs.foldl (fun acc x => ys.foldl (fun a2 y => f a2 x y) acc) init
      = (xs.bind (fun x => ys.map (fun y => (x, y)))).foldl
          (fun acc p => f acc p.1 p.2) init := by
  intro xs
  induction xs with
  | nil => intro ys init; rfl
  | cons x xs ih =>
    intro ys init
    simp only [List.foldl_cons, List.cons_bind, List.foldl_append, List.foldl_map]
    rw [ih]

theorem getCell_foldl_setCell (v : ℚ) :
    ∀ (ps : List (Int × Int)) (res : Surface) (Y X : Nat),
    getCell (ps.foldl (fun acc p => setCell acc p.2 p.1 v) res) Y X =
      if ps.any (fun p => decide (resolvePair res p.2 p.1 = some (Y, X))) = true
      then some v else getCell res Y X := by
  intro ps
  induction ps with
  | nil => intro res Y X; simp
  | cons p ps ih =>
    intro res Y X
    simp only [List.foldl_cons, List.any_cons, Bool.or_eq_true]
    rw [ih]
    simp only [resolvePair_setCell]
    rw [getCell_setCell]
    by_cases hC : resolvePair res p.2 p.1 = some (Y, X)
    · simp [hC]
    · rw [decide_eq_false hC]
      by_cases hA : (ps.any fun q => decide (resolvePair res q.2 q.1 = some (Y, X))) = true
      · simp [hA]
      · simp [hA, hC]

/-! ## The suppression window -/

/-- The `(x, y)` pairs enumerated by the two `range` loops of the
suppression step, in loop order. -/
def suppressWindow (sx sy w h : Nat) : List (Int × Int) :=
  (intRange (truncHalf (2 * sx - w)) (truncHalf (2 * sx + w))).bind
    (fun x => (intRange (truncHalf (2 * sy - h)) (truncHalf (2 * sy + h))).map
      (fun y => (x, y)))

theorem suppress_eq_foldl (res : Surface) (sx sy w h : Nat) :
    suppress res sx sy w h
      = (suppressWindow sx sy w h).foldl
          (fun acc p => setCell acc p.2 p.1 (-10000)) res := by
  unfold suppress suppressWindow
  exact foldl_nested_eq_bind (fun acc x y => setCell acc y x (-10000)) _ _ _

theorem getCell_suppress (res : Surface) (sx sy w h Y X : Nat) :
    getCell (suppress res sx sy w h) Y X =
      if (suppressWindow sx sy w h).any
           (fun p => decide (resolvePair res p.2 p.1 = some (Y, X))) = true
      then some (-10000) else getCell res Y X := by
  rw [suppress_eq_foldl]
  exact getCell_foldl_setCell (-10000) _ res Y X

theorem foldl_setCell_length (v : ℚ) :
    ∀ (ps : List (Int × Int)) (res : Surface),
    (ps.foldl (fun acc p => setCell acc p.2 p.1 v) res).length = res.length := by
  intro ps
  induction ps with
  | nil => intro res; rfl
  | cons p ps ih =>
    intro res
    simp only [List.foldl_cons]
    rw [ih, setCell_length]

theorem foldl_setCell_get?_length (v : ℚ) :
    ∀ (ps : List (Int × Int)) (res : Surface) (i : Nat),
    ((ps.foldl (fun acc p => setCell acc p.2 p.1 v) res).get? i).map List.length
      = ((res.get? i).map List.length) := by
  intro ps
  induction ps with
  | nil => intro res i; rfl
  | cons p ps ih =>
    intro res i
    simp only [List.foldl_cons]
    rw [ih, setCell_get?_length]

theorem suppress_length (res : Surface) (sx sy w h : Nat) :
    (suppress res sx sy w h).length = res.length := by
  rw [suppress_eq_foldl]
  exact foldl_setCell_length (-10000) _ res

theorem suppress_get?_length (res : Surface) (sx sy w h : Nat) (i : Nat) :
    ((suppress res sx sy w h).get? i).map List.length
      = (res.get? i).map List.length := by
  rw [suppress_eq_foldl]
  exact foldl_setCell_get?_length (-10000) _ res i

theorem getCell_suppress_or (res : Surface) (sx sy w h Y X : Nat) :
    getCell (suppress res sx sy w h) Y X = getCell res Y X ∨
      getCell (suppress res sx sy w h) Y X = some (-10000) := by
  by_cases hc : (suppressWindow sx sy w h).any
      (fun p => decide (resolvePair res p.2 p.1 = some (Y, X))) = true
  · rw [getCell_suppress, if_pos hc]
    exact Or.inr rfl
  · rw [getCell_suppress, if_neg hc]
    exact Or.inl rfl

theorem mem_suppressWindow {sx sy w h : Nat} {x y : Int} :
    (x, y) ∈ suppressWindow sx sy w h ↔
      (truncHalf (2 * sx - w) ≤ x ∧ x < truncHalf (2 * sx + w)) ∧
      (truncHalf (2 * sy - h) ≤ y ∧ y < truncHalf (2 * sy + h)) := by
  unfold suppressWindow
  simp only [List.mem_bind, List.mem_map, mem_intRange, Prod.mk.injEq]
  constructor
  · rintro ⟨x2, hx2, y2, hy2, rfl, rfl⟩
    exact ⟨hx2, hy2⟩
  · rintro ⟨hx, hy⟩
    exact ⟨x, hx, y, hy, rfl, rfl⟩

theorem truncHalf_le_self (sx w : Nat) : truncHalf (2 * sx - w) ≤ (sx : Int) := by
  unfold truncHalf
  split <;> omega

theorem lt_truncHalf_self (sx w : Nat) (hw : 2 ≤ w) :
    (sx : Int) < truncHalf (2 * sx + w) := by
  unfold truncHalf
  split <;> omega

theorem self_mem_suppressWindow {sx sy w h : Nat} (hw : 2 ≤ w) (hh : 2 ≤ h) :
    ((sx : Int), (sy : Int)) ∈ suppressWindow sx sy w h := by
  rw [mem_suppressWindow]
  exact ⟨⟨truncHalf_le_self sx w, lt_truncHalf_self sx w hw⟩,
         ⟨truncHalf_le_self sy h, lt_truncHalf_self sy h hh⟩⟩

theorem resolvePair_coe {res : Surface} {Y X : Nat} {row : List ℚ}
    (hY : res.get? Y = some row) (hX : X < row.length) :
    resolvePair res (Y : Int) (X : Int) = some (Y, X) :=
  resolvePair_eq_some.mpr
    ⟨row, resolveIdx_coe (lt_length_of_get?_eq_some hY), hY, resolveIdx_coe hX⟩

theorem getCell_suppress_self {res : Surface} {row : List ℚ} {sx sy w h : Nat}
    (hw : 2 ≤ w) (hh : 2 ≤ h) (hrow : res.get? sy = some row) (hsx : sx < row.length) :
    getCell (suppress res sx sy w h) sy sx = some (-10000) := by
  rw [getCell_suppress, if_pos]
  rw [List.any_eq_true]
  refine ⟨((sx : Int), (sy : Int)), self_mem_suppressWindow hw hh, ?_⟩
  simp only [decide_eq_true_eq]
  exact resolvePair_coe hrow hsx

theorem mem_range_of_w1 {s w : Nat} {x : Int} (hw : w = 1)
    (h1 : truncHalf (2 * s - w) ≤ x) (h2 : x < truncHalf (2 * s + w)) :
    1 ≤ s ∧ x = (s : Int) - 1 := by
  subst hw
  unfold truncHalf at h1 h2
  split at h1 <;> split at h2 <;> omega

theorem getCell_suppress_of_thin {res : Surface} {sx sy w h : Nat}
    (hwh : w = 1 ∨ h = 1) :
    getCell (suppress res sx sy w h) sy sx = getCell res sy sx := by
  rw [getCell_suppress, if_neg]
  intro hany
  rw [List.any_eq_true] at hany
  obtain ⟨p, hp, hpred⟩ := hany
  obtain ⟨x, y⟩ := p
  rw [mem_suppressWindow] at hp
  simp only [decide_eq_true_eq] at hpred
  obtain ⟨row2, hY, hrow2, hX⟩ := resolvePair_eq_some.mp hpred
  rcases hwh with hw1 | hh1
  · obtain ⟨hs1, rfl⟩ := mem_range_of_w1 hw1 hp.1.1 hp.1.2
    have hxx := resolveIdx_of_nonneg (by omega) hX
    omega
  · obtain ⟨hs1, rfl⟩ := mem_range_of_w1 hh1 hp.2.1 hp.2.2
    have hyy := resolveIdx_of_nonneg (by omega) hY
    omega

/-! ## A counting measure for the extraction loop -/

/-- Number of entries of a row strictly above the overlap threshold. -/
def rowCount (t : ℚ) (l : List ℚ) : Nat := l.countP (fun v => decide (t < v))

/-- Number of surface cells strictly above the overlap threshold. -/
def surfaceCount (t : ℚ) (res : Surface) : Nat := (res.map (rowCount t)).sum

theorem rowCount_le (t : ℚ) (ht : ¬ t < -10000) :
    ∀ (l2 l : List ℚ), l2.length = l.length →
    (∀ i, l2.get? i = l.get? i ∨ l2.get? i = some (-10000)) →
    rowCount t l2 ≤ rowCount t l := by
  intro l2
  induction l2 with
  | nil => intro l _ _; simp [rowCount]
  | cons a l2 ih =>
    intro l hlen hpt
    cases l with
    | nil => simp at hlen
    | cons b l =>
      have h0 := hpt 0
      simp only [List.get?_cons_zero, Option.some.injEq] at h0
      have htl : ∀ i, l2.get? i = l.get? i ∨ l2.get? i = some (-10000) := by
        intro i
        have h := hpt (i + 1)
        simpa using h
      have hlen2 : l2.length = l.length := by simpa using hlen
      have hih := ih l hlen2 htl
      unfold rowCount at hih ⊢
      simp only [List.countP_cons]
      rcases h0 with rfl | rfl
      · exact Nat.add_le_add_right hih _
      · have hd : (decide (t < (-10000 : ℚ))) = false := decide_eq_false ht
        cases hb : decide (t < b) <;> simp [hd, hb] <;> omega

theorem rowCount_lt (t : ℚ) (ht : ¬ t < -10000) :
    ∀ (l2 l : List ℚ) (X : Nat), l2.length = l.length →
    (∀ i, l2.get? i = l.get? i ∨ l2.get? i = some (-10000)) →
    (∃ v, l.get? X = some v ∧ t < v) → l2.get? X = some (-10000) →
    rowCount t l2 < rowCount t l := by
  intro l2
  induction l2 with
  | nil =>
    intro l X _ _ _ hx
    simp at hx
  | cons a l2 ih =>
    intro l X hlen hpt hv hx
    cases l with
    | nil => simp at hlen
    | cons b l =>
      obtain ⟨v, hbv, htv⟩ := hv
      have h0 := hpt 0
      simp only [List.get?_cons_zero, Option.some.injEq] at h0
      have htl : ∀ i, l2.get? i = l.get? i ∨ l2.get? i = some (-10000) := by
        intro i
        have h := hpt (i + 1)
        simpa using h
      have hlen2 : l2.length = l.length := by simpa using hlen
      have hd : (decide (t < (-10000 : ℚ))) = false := decide_eq_false ht
      unfold rowCount
      simp only [List.countP_cons]
      cases X with
      | zero =>
        simp only [List.get?_cons_zero, Option.some.injEq] at hbv hx
        have hle := rowCount_le t ht l2 l hlen2 htl
        unfold rowCount at hle
        subst hx
        have hb : (decide (t < b)) = true := by
          rw [← hbv] at htv
          exact decide_eq_true htv
        simp [hd, hb]
        omega
      | succ X =>
        have hx2 : l2.get? X = some (-10000) := by simpa using hx
        have hv2 : ∃ v, l.get? X = some v ∧ t < v := ⟨v, by simpa using hbv, htv⟩
        have hih := ih l X hlen2 htl hv2 hx2
        unfold rowCount at hih
        rcases h0 with rfl | rfl
        · exact Nat.add_lt_add_right hih _
        · cases hb : decide (t < b) <;> simp [hd, hb] <;> omega

theorem surfaceCount_le (t : ℚ) (ht : ¬ t < -10000) :
    ∀ (res2 res : Surface), res2.length = res.length →
    (∀ i, (res2.get? i).map List.length = (res.get? i).map List.length) →
    (∀ Y X, getCell res2 Y X = getCell res Y X ∨ getCell res2 Y X = some (-10000)) →
    surfaceCount t res2 ≤ surfaceCount t res := by
  intro res2
  induction res2 with
  | nil => intro res _ _ _; simp [surfaceCount]
  | cons row2 rows2 ih =>
    intro res hlen hrl hpt
    cases res with
    | nil => simp at hlen
    | cons row rows =>
      have hrow : rowCount t row2 ≤ rowCount t row := by
        apply rowCount_le t ht
        · have h := hrl 0
          simpa using h
        · intro X
          have h := hpt 0 X
          simpa [getCell] using h
      have htail : surfaceCount t rows2 ≤ surfaceCount t rows := by
        apply ih
        · simpa using hlen
        · intro i
          have h := hrl (i + 1)
          simpa using h
        · intro Y X
          have h := hpt (Y + 1) X
          simpa [getCell] using h
      unfold surfaceCount at htail ⊢
      simp only [List.map_cons, List.sum_cons]
      exact Nat.add_le_add hrow htail

theorem surfaceCount_lt (t : ℚ) (ht : ¬ t < -10000) :
    ∀ (res2 res : Surface) (Y X : Nat), res2.length = res.length →
    (∀ i, (res2.get? i).map List.length = (res.get? i).map List.length) →
    (∀ Y X, getCell res2 Y X = getCell res Y X ∨ getCell res2 Y X = some (-10000)) →
    (∃ v, getCell res Y X = some v ∧ t < v) → getCell res2 Y X = some (-10000) →
    surfaceCount t res2 < surfaceCount t res := by
  intro res2
  induction res2 with
  | nil =>
    intro res Y X _ _ _ _ hx
    simp [getCell] at hx
  | cons row2 rows2 ih =>
    intro res Y X hlen hrl hpt hv hx
    cases res with
    | nil => simp at hlen
    | cons row rows =>
      have hrow_le : rowCount t row2 ≤ rowCount t row := by
        apply rowCount_le t ht
        · have h := hrl 0
          simpa using h
        · intro X2
          have h := hpt 0 X2
          simpa [getCell] using h
      have htail_le : surfaceCount t rows2 ≤ surfaceCount t rows := by
        apply surfaceCount_le t ht
        · simpa using hlen
        · intro i
          have h := hrl (i + 1)
          simpa using h
        · intro Y2 X2
          have h := hpt (Y2 + 1) X2
          simpa [getCell] using h
      unfold surfaceCount
      simp only [List.map_cons, List.sum_cons]
      cases Y with
      | zero =>
        have hrow_lt : rowCount t row2 < rowCount t row := by
          apply rowCount_lt t ht row2 row X
          · have h := hrl 0
            simpa using h
          · intro X2
            have h := hpt 0 X2
            simpa [getCell] using h
          · obtain ⟨v, hv1, hv2⟩ := hv
            exact ⟨v, by simpa [getCell] using hv1, hv2⟩
          · simpa [getCell] using hx
        have h2 : (rows2.map (rowCount t)).sum ≤ (rows.map (rowCount t)).sum := htail_le
        omega
      | succ Y =>
        have htail_lt : surfaceCount t rows2 < surfaceCount t rows := by
          apply ih rows Y X
          · simpa using hlen
          · intro i
            have h := hrl (i + 1)
            simpa using h
          · intro Y2 X2
            have h := hpt (Y2 + 1) X2
            simpa [getCell] using h
          · obtain ⟨v, hv1, hv2⟩ := hv
            exact ⟨v, by simpa [getCell] using hv1, hv2⟩
          · simpa [getCell] using hx
        have h2 : surfaceCount t rows2 < surfaceCount t rows := htail_lt
        unfold surfaceCount at h2
        omega

theorem one_le_surfaceCount {t : ℚ} {res : Surface} {Y X : Nat} {v : ℚ}
    (h : getCell res Y X = some v) (hv : t < v) : 1 ≤ surfaceCount t res := by
  obtain ⟨row, hr, hx⟩ := getCell_eq_some.mp h
  have hmem : v ∈ row := List.get?_mem hx
  have hrow : 0 < rowCount t row := by
    unfold rowCount
    rw [List.countP_pos]
    exact ⟨v, hmem, decide_eq_true hv⟩
  have hrmem : rowCount t row ∈ res.map (rowCount t) :=
    List.mem_map_of_mem _ (List.get?_mem hr)
  have hsum : rowCount t row ≤ (res.map (rowCount t)).sum :=
    List.single_le_sum (fun x _ => Nat.zero_le x) _ hrmem
  unfold surfaceCount
  omega

/-! ## Behaviour of the extraction loop -/

theorem minMaxLoc_max_x (res : Surface) :
    (minMaxLoc res).2.2.2.1 = (maxCell res).2.1 := rfl

theorem minMaxLoc_max_y (res : Surface) :
    (minMaxLoc res).2.2.2.2 = (maxCell res).2.2 := rfl

theorem get_size_fst (p : Pattern) : p.get_size.1 = p.width := rfl

theorem get_size_snd (p : Pattern) : p.get_size.2 = p.height := rfl

theorem maxScore_suppress_thin {res : Surface} {w h : Nat}
    (hwh : w = 1 ∨ h = 1) (hne : surfaceCells res ≠ [])
    (hlow : -10000 ≤ maxScore res) :
    maxScore (suppress res (maxCell res).2.1 (maxCell res).2.2 w h) = maxScore res := by
  have hcell : getCell res (maxCell res).2.2 (maxCell res).2.1 = some (maxScore res) :=
    maxCell_getCell hne
  have hpres : getCell (suppress res (maxCell res).2.1 (maxCell res).2.2 w h)
      (maxCell res).2.2 (maxCell res).2.1 = getCell res (maxCell res).2.2 (maxCell res).2.1 :=
    getCell_suppress_of_thin hwh
  have hup : maxScore res ≤ maxScore (suppress res (maxCell res).2.1 (maxCell res).2.2 w h) :=
    le_maxScore (by rw [hpres]; exact hcell)
  have hne2 : surfaceCells (suppress res (maxCell res).2.1 (maxCell res).2.2 w h) ≠ [] :=
    surfaceCells_ne_nil (by rw [hpres]; exact hcell)
  have hdown : maxScore (suppress res (maxCell res).2.1 (maxCell res).2.2 w h)
      ≤ maxScore res := by
    have hmc := maxCell_getCell hne2
    rcases getCell_suppress_or res (maxCell res).2.1 (maxCell res).2.2 w h
        (maxCell (suppress res (maxCell res).2.1 (maxCell res).2.2 w h)).2.2
        (maxCell (suppress res (maxCell res).2.1 (maxCell res).2.2 w h)).2.1 with ho | ho
    · exact le_maxScore (ho.symm.trans hmc)
    · have hval := ho.symm.trans hmc
      simp only [Option.some.injEq] at hval
      rw [show maxScore (suppress res (maxCell res).2.1 (maxCell res).2.2 w h)
            = (maxCell (suppress res (maxCell res).2.1 (maxCell res).2.2 w h)).1 from rfl,
          ← hval]
      exact hlow
  exact le_antisymm hdown hup

theorem multiLoop_none_of_thin (precision threshold : ℚ) (pattern : Pattern)
    (hwh : pattern.width = 1 ∨ pattern.height = 1) (ht : -10000 < threshold) :
    ∀ (fuel : Nat) (res : Surface) (acc : List Location),
    surfaceCells res ≠ [] → threshold < maxScore res → maxScore res < precision →
    multiLoop precision threshold pattern fuel res acc = none := by
  intro fuel
  induction fuel with
  | zero =>
    intro res acc _ _ _
    rfl
  | succ n ih =>
    intro res acc hne h1 h2
    have hcond : precision > (minMaxLoc res).2.1 ∧ (minMaxLoc res).2.1 > threshold := by
      rw [minMaxLoc_max_val]
      exact ⟨h2, h1⟩
    simp only [multiLoop]
    rw [if_neg FIND_METHOD_not_sqdiff, if_pos hcond]
    simp only [minMaxLoc_max_x, minMaxLoc_max_y, get_size_fst, get_size_snd]
    have hcell : getCell res (maxCell res).2.2 (maxCell res).2.1 = some (maxScore res) :=
      maxCell_getCell hne
    have hpres : getCell (suppress res (maxCell res).2.1 (maxCell res).2.2
          pattern.width pattern.height)
        (maxCell res).2.2 (maxCell res).2.1
        = getCell res (maxCell res).2.2 (maxCell res).2.1 :=
      getCell_suppress_of_thin hwh
    have hms : maxScore (suppress res (maxCell res).2.1 (maxCell res).2.2
        pattern.width pattern.height) = maxScore res :=
      maxScore_suppress_thin hwh hne (le_of_lt (ht.trans h1))
    apply ih
    · exact surfaceCells_ne_nil (by rw [hpres]; exact hcell)
    · rw [hms]; exact h1
    · rw [hms]; exact h2

theorem multiLoop_isSome_of_fat (precision threshold : ℚ) (pattern : Pattern)
    (hw : 2 ≤ pattern.width) (hh : 2 ≤ pattern.height) (ht : -10000 < threshold) :
    ∀ (n : Nat) (res : Surface) (acc : List Location),
    surfaceCells res ≠ [] → surfaceCount threshold res ≤ n →
    (multiLoop precision threshold pattern (n + 1) res acc).isSome = true := by
  have htn : ¬ threshold < -10000 := lt_asymm ht
  intro n
  induction n with
  | zero =>
    intro res acc hne hcnt
    simp only [multiLoop]
    by_cases hcond : precision > (minMaxLoc res).2.1 ∧ (minMaxLoc res).2.1 > threshold
    · exfalso
      have hcell := maxCell_getCell hne
      have h1 : 1 ≤ surfaceCount threshold res :=
        one_le_surfaceCount hcell (by rw [minMaxLoc_max_val] at hcond; exact hcond.2)
      omega
    · rw [if_neg hcond]
      rfl
  | succ n ih =>
    intro res acc hne hcnt
    simp only [multiLoop]
    by_cases hcond : precision > (minMaxLoc res).2.1 ∧ (minMaxLoc res).2.1 > threshold
    · rw [if_neg FIND_METHOD_not_sqdiff, if_pos hcond]
      simp only [minMaxLoc_max_x, minMaxLoc_max_y, get_size_fst, get_size_snd]
      have hcell := maxCell_getCell hne
      obtain ⟨row, hr, hx⟩ := getCell_eq_some.mp hcell
      have hxlt : (maxCell res).2.1 < row.length := lt_length_of_get?_eq_some hx
      have hself : getCell (suppress res (maxCell res).2.1 (maxCell res).2.2
            pattern.width pattern.height) (maxCell res).2.2 (maxCell res).2.1
          = some (-10000) :=
        getCell_suppress_self hw hh hr hxlt
      have hne2 : surfaceCells (suppress res (maxCell res).2.1 (maxCell res).2.2
          pattern.width pattern.height) ≠ [] := surfaceCells_ne_nil hself
      have hcntlt : surfaceCount threshold (suppress res (maxCell res).2.1 (maxCell res).2.2
            pattern.width pattern.height) < surfaceCount threshold res := by
        apply surfaceCount_lt threshold htn _ res (maxCell res).2.2 (maxCell res).2.1
        · exact suppress_length res _ _ _ _
        · exact suppress_get?_length res _ _ _ _
        · intro Y X
          exact getCell_suppress_or res _ _ _ _ Y X
        · refine ⟨(maxCell res).1, hcell, ?_⟩
          rw [minMaxLoc_max_val] at hcond
          exact hcond.2
        · exact hself
      exact ih _ _ hne2 (by omega)
    · rw [if_neg hcond]
      rfl

/-! ## Computation lemmas for the search functions -/

theorem match_template_ok (engine : Img → Img → Surface) (pattern : Pattern)
    (region : Option Rectangle) (stack : ScreenshotImage) :
    match_template engine pattern region (Except.ok stack)
      = if (minMaxLoc (engine (mt_haystack pattern stack) (mt_needle pattern))).2.1
            < pattern.similarity
        then Location.mk (-1) (-1)
        else
          match region with
          | some r =>
            Location.mk
              (((maxCell (engine (mt_haystack pattern stack) (mt_needle pattern))).2.1 : Int)
                 + r.x)
              (((maxCell (engine (mt_haystack pattern stack) (mt_needle pattern))).2.2 : Int)
                 + r.y)
          | none =>
            Location.mk
              ((maxCell (engine (mt_haystack pattern stack) (mt_needle pattern))).2.1 : Int)
              ((maxCell (engine (mt_haystack pattern stack) (mt_needle pattern))).2.2 : Int) := by
  simp only [match_template]
  by_cases hlt : (minMaxLoc (engine (mt_haystack pattern stack) (mt_needle pattern))).2.1
      < pattern.similarity
  · simp [hlt]
  · rw [if_neg hlt]
    rw [if_neg ?_]
    · rw [if_neg hlt]
      cases region with
      | some r =>
        dsimp only
        rw [minMaxLoc_max_x, minMaxLoc_max_y]
      | none =>
        dsimp only
        rw [minMaxLoc_max_x, minMaxLoc_max_y]
    · dsimp only
      rintro (hc | hc) <;> omega

theorem guard_ok_true {p : Pattern} {r : Rectangle}
    (h1 : p.width ≤ r.width) (h2 : p.height ≤ r.height) :
    is_pattern_size_correct p (some r) = PyResult.ok true := by
  unfold is_pattern_size_correct
  simp only [get_size_fst, get_size_snd]
  rw [if_neg (by omega), if_neg (by omega)]

theorem vanishLoop_found_none (engine : Img → Img → Surface) (pattern : Pattern)
    (region : Option Rectangle) (captures : Nat → Except ScreenshotError ScreenshotImage)
    (clock : Nat → ℚ) (end_time : ℚ)
    (hfound : ∀ k, (match_template engine pattern region (captures k)).x ≠ -1
        ∧ (match_template engine pattern region (captures k)).y ≠ -1) :
    ∀ (fuel k : Nat) (start : ℚ) (w : Option Bool),
    vanishLoop engine pattern region captures clock end_time fuel k true start = some w →
    w = none := by
  intro fuel
  induction fuel with
  | zero =>
    intro k start w h
    exact Option.noConfusion h
  | succ n ih =>
    intro k start w h
    simp only [vanishLoop] at h
    by_cases hc : start < end_time
    · rw [if_pos (⟨trivial, hc⟩ : True ∧ start < end_time)] at h
      have hb : (decide ((match_template engine pattern region (captures k)).x ≠ -1)
          && decide ((match_template engine pattern region (captures k)).y ≠ -1)) = true := by
        rw [decide_eq_true (hfound k).1, decide_eq_true (hfound k).2]
        rfl
      rw [hb] at h
      exact ih (k + 1) (clock (k + 1)) w h
    · rw [if_neg (fun hcc => hc hcc.2)] at h
      have h2 := Option.some.inj h
      rw [if_pos trivial] at h2
      exact h2.symm

theorem vanishLoop_never_false (engine : Img → Img → Surface) (pattern : Pattern)
    (region : Option Rectangle) (captures : Nat → Except ScreenshotError ScreenshotImage)
    (clock : Nat → ℚ) (end_time : ℚ) :
    ∀ (fuel k : Nat) (pf : Bool) (start : ℚ) (w : Option Bool),
    vanishLoop engine pattern region captures clock end_time fuel k pf start = some w →
    w ≠ some false := by
  intro fuel
  induction fuel with
  | zero =>
    intro k pf start w h
    exact Option.noConfusion h
  | succ n ih =>
    intro k pf start w h
    simp only [vanishLoop] at h
    by_cases hc : (pf = true ∧ start < end_time)
    · rw [if_pos hc] at h
      exact ih _ _ _ _ h
    · rw [if_neg hc] at h
      have h2 := Option.some.inj h
      rw [← h2]
      cases pf <;> simp

/-! ## Concrete fixtures -/

/-- A 1-by-1 abstract image. -/
def demoImg : Img := ⟨0, 1, 1⟩

/-- A 1-by-1 pattern with similarity 0.5 (grayscale mode). -/
def demoPattern : Pattern := ⟨1 / 2, 1, 1, demoImg, demoImg, demoImg, demoImg⟩

/-- A 1-by-1 region at the origin. -/
def demoRect : Rectangle := ⟨0, 0, 1, 1⟩

/-- A fixed screenshot. -/
def demoStack : ScreenshotImage := ⟨demoImg, demoImg, demoImg, demoImg⟩

/-- An engine whose score surface is the single cell 1. -/
def demoEngine : Img → Img → Surface := fun _ _ => [[1]]

/-- Captures that always succeed with `demoStack`. -/
def demoCaptures : Nat → Except ScreenshotError ScreenshotImage :=
  fun _ => Except.ok demoStack

/-- A clock advancing one second per reading. -/
def demoClock : Nat → ℚ := fun k => (k : ℚ)

/-- A 2-by-2 pattern, larger than `demoRect`. -/
def demoBigPattern : Pattern := ⟨1 / 2, 2, 2, demoImg, demoImg, demoImg, demoImg⟩

/-- A pattern with the reserved similarity 0.99 and four distinct arrays. -/
def demoColorPattern : Pattern :=
  ⟨99 / 100, 1, 1, ⟨1, 1, 1⟩, ⟨2, 1, 1⟩, ⟨3, 1, 1⟩, ⟨4, 1, 1⟩⟩

/-- A 2-by-2 pattern with similarity 0.7 whose image handle (ident 3) and
array handle (ident 4) differ. -/
def pat22 : Pattern := ⟨7 / 10, 2, 2, ⟨3, 2, 2⟩, ⟨3, 2, 2⟩, ⟨4, 2, 2⟩, ⟨4, 2, 2⟩⟩

/-- An engine scoring 1 against the image handle of `pat22` and 0.6 against
its array handle. -/
def contrastEngine : Img → Img → Surface :=
  fun _ needle => if needle.ident = 3 then [[1]] else [[3 / 5]]

/-- A 2-by-2 region away from the origin. -/
def demoRect2 : Rectangle := ⟨10, 20, 2, 2⟩

/-- An engine producing a 2-by-2 surface with its maximum at the origin. -/
def engine5 : Img → Img → Surface := fun _ _ => [[1, 0], [0, 0]]

/-- A 1-by-1 pattern searched inside `rect5`. -/
def pat5 : Pattern := ⟨1 / 2, 1, 1, ⟨7, 1, 1⟩, ⟨7, 1, 1⟩, ⟨7, 1, 1⟩, ⟨7, 1, 1⟩⟩

/-- A 2-by-2 screenshot for `rect5`. -/
def stack5 : ScreenshotImage := ⟨⟨8, 2, 2⟩, ⟨8, 2, 2⟩, ⟨8, 2, 2⟩, ⟨8, 2, 2⟩⟩

/-- A 2-by-2 region with origin (2, 3). -/
def rect5 : Rectangle := ⟨2, 3, 2, 2⟩

/-! ## Claim theorems -/

/-- C2: the claim says every public entry point returns a value-level result and
never raises for expected conditions including an omitted region (full-screen)
and an omitted timeout.  Evaluating the embedded code at the failing inputs:
`image_find` with a null region raises `AttributeError` inside the size guard
(`region.width` on `None`), for every pattern, timeout, engine, capture stream
and clock; and `image_vanish` with a fitting region but omitted timeout reaches
`datetime.timedelta(seconds=None)` and raises `TypeError`. -/
theorem C2_entry_points_raise :
    (∀ (pattern : Pattern) (timeout : Option ℚ) (engine : Img → Img → Surface)
        (captures : Nat → Except ScreenshotError ScreenshotImage) (clock : Nat → ℚ)
        (auto_wait_timeout : ℚ) (fuel : Nat),
      image_find pattern timeout none engine captures clock auto_wait_timeout fuel
        = some (PyResult.raised PyErr.attributeError))
    ∧ image_vanish demoPattern none (some demoRect) demoEngine demoCaptures demoClock 5
        = some (PyResult.raised PyErr.typeError)
    ∧ image_find demoPattern (some 1) none demoEngine demoCaptures demoClock 3 5
        = some (PyResult.raised PyErr.attributeError) := by
  refine ⟨?_, by with_unfolding_all decide, by with_unfolding_all decide⟩
  intro pattern timeout engine captures clock auto_wait_timeout fuel
  rfl

/-- C3: in the extraction loop of `match_template_multiple`, a location is
recorded if and only if the current global maximum of the score surface lies
strictly between the overlap threshold and the pattern similarity
(`threshold < maxScore < similarity`): (1) when the maximum is not strictly
between, the loop stops at once and returns the accumulator unchanged; (2) when
it is strictly between, the iteration records exactly the maximum location and
continues on the suppressed surface; (3) consequently, when the initial global
maximum already reaches the similarity threshold, `match_template_multiple`
reports nothing at all. -/
theorem C3_strict_between :
    (∀ (precision threshold : ℚ) (pattern : Pattern) (fuel : Nat) (res : Surface)
        (acc : List Location),
      ¬ (threshold < maxScore res ∧ maxScore res < precision) →
      multiLoop precision threshold pattern (fuel + 1) res acc = some acc)
    ∧ (∀ (precision threshold : ℚ) (pattern : Pattern) (fuel : Nat) (res : Surface)
        (acc : List Location),
      threshold < maxScore res → maxScore res < precision →
      multiLoop precision threshold pattern (fuel + 1) res acc
        = multiLoop precision threshold pattern fuel
            (suppress res (maxCell res).2.1 (maxCell res).2.2 pattern.width pattern.height)
            (acc ++ [Location.mk (maxCell res).2.1 (maxCell res).2.2]))
    ∧ (∀ (engine : Img → Img → Surface) (pattern : Pattern) (region : Option Rectangle)
        (stack : ScreenshotImage) (threshold : ℚ) (fuel : Nat),
      pattern.similarity
          ≤ maxScore (engine (mtm_haystack pattern stack) (mtm_needle pattern)) →
      match_template_multiple engine pattern region (Except.ok stack) threshold (fuel + 1)
        = some []) := by
  refine ⟨?_, ?_, ?_⟩
  · intro precision threshold pattern fuel res acc hstop
    simp only [multiLoop]
    rw [if_neg]
    intro hc
    rw [minMaxLoc_max_val] at hc
    exact hstop ⟨hc.2, hc.1⟩
  · intro precision threshold pattern fuel res acc h1 h2
    simp only [multiLoop]
    rw [if_neg FIND_METHOD_not_sqdiff,
      if_pos (by rw [minMaxLoc_max_val]; exact ⟨h2, h1⟩)]
    simp only [minMaxLoc_max_x, minMaxLoc_max_y, get_size_fst, get_size_snd]
  · intro engine pattern region stack threshold fuel hge
    show multiLoop pattern.similarity threshold pattern (fuel + 1)
        (engine (mtm_haystack pattern stack) (mtm_needle pattern)) [] = some []
    simp only [multiLoop]
    rw [if_neg]
    intro hc
    rw [minMaxLoc_max_val] at hc
    exact absurd hge (not_le_of_lt hc.1)

/-- C3 witness: the three parts of `C3_strict_between` at concrete inputs — a
surface whose maximum 2 reaches precision 1 stops at once; a surface whose
maximum 0.6 lies strictly between 0.5 and 0.7 records the maximum location
(0, 0); and a single-cell surface scoring at the similarity bar makes
`match_template_multiple` report nothing. -/
theorem C3_strict_between_witness :
    multiLoop 1 0 demoPattern 1 [[2]] [] = some []
    ∧ multiLoop (7 / 10) (1 / 2) pat22 1 [[3 / 5]] []
        = multiLoop (7 / 10) (1 / 2) pat22 0
            (suppress [[3 / 5]] (maxCell [[3 / 5]]).2.1 (maxCell [[3 / 5]]).2.2
              pat22.width pat22.height)
            ([] ++ [Location.mk (maxCell [[3 / 5]]).2.1 (maxCell [[3 / 5]]).2.2])
    ∧ match_template_multiple demoEngine demoPattern none (Except.ok demoStack) 0 1
        = some [] := by
  refine ⟨?_, ?_, ?_⟩
  · exact C3_strict_between.1 1 0 demoPattern 0 [[2]] [] (by with_unfolding_all decide)
  · exact C3_strict_between.2.1 (7 / 10) (1 / 2) pat22 0 [[3 / 5]] [] (by with_unfolding_all decide) (by with_unfolding_all decide)
  · exact C3_strict_between.2.2 demoEngine demoPattern none demoStack 0 0 (by with_unfolding_all decide)

set_option maxRecDepth 10000 in
/-- C4 counterexample: the claim says every surface cell outside the centered
window (intersected with the surface bounds) keeps its previous score, with
out-of-surface parts silently skipped.  On a 3-by-5 zero surface, suppressing
around the found location (0, 0) for a 4-by-2 pattern has window x-range
[-2, 2) and y-range [-1, 1); yet the cell at row 2, column 4 — far outside that
window — does not keep its previous score 0: it is overwritten (with the
sentinel), because Python/numpy negative indices wrap around to the far edge
instead of being skipped. -/
theorem C4_suppression_frame_counterexample :
    getCell (suppress [[0, 0, 0, 0, 0], [0, 0, 0, 0, 0], [0, 0, 0, 0, 0]] 0 0 4 2) 2 4
        ≠ some 0
    ∧ getCell [[0, 0, 0, 0, 0], [0, 0, 0, 0, 0], [0, 0, 0, 0, 0]] 2 4 = some 0
    ∧ truncHalf (2 * (0 : Nat) - (4 : Nat)) = -2
    ∧ truncHalf (2 * (0 : Nat) + (4 : Nat)) = 2
    ∧ ¬ ((-2 : Int) ≤ 4 ∧ (4 : Int) < 2) := by
  with_unfolding_all decide

/-- C4 (amended): each suppression step overwrites with the sentinel score
exactly the cells addressed by the assignment `res[y][x] = -10000` for `(x, y)`
ranging over the window `[int(sx - w/2), int(sx + w/2)) ×
[int(sy - h/2), int(sy + h/2))`, under Python/numpy index semantics: an index
in `[0, len)` addresses directly, an index in `[-len, 0)` wraps to the far
edge, and any other index is silently skipped (`IndexError` caught); every
cell not so addressed keeps its previous score unchanged. -/
theorem C4_suppression_frame_amended :
    ∀ (res : Surface) (sx sy w h Y X : Nat),
    getCell (suppress res sx sy w h) Y X =
      if (suppressWindow sx sy w h).any
           (fun p => decide (resolvePair res p.2 p.1 = some (Y, X))) = true
      then some (-10000) else getCell res Y X :=
  fun res sx sy w h Y X => getCell_suppress res sx sy w h Y X

/-- C7: the claim says the guard, given a pattern and an optional rectangle,
returns whether the pattern fits the region or the full-screen capture.  On a
null region the code instead raises `AttributeError` (`region.width` on
`None`) — the full-screen case never consults the screen.  For a supplied
rectangle the boolean contract does hold: the guard returns true exactly when
both pattern dimensions fit, and on an oversized pattern `image_find` returns
the null result for every engine and capture stream, without invoking the
correlation engine. -/
theorem C7_guard_contract :
    is_pattern_size_correct demoPattern none = PyResult.raised PyErr.attributeError
    ∧ (∀ (p : Pattern) (r : Rectangle),
        is_pattern_size_correct p (some r) = PyResult.ok true ↔
          p.width ≤ r.width ∧ p.height ≤ r.height)
    ∧ (∀ (engine : Img → Img → Surface)
        (captures : Nat → Except ScreenshotError ScreenshotImage)
        (clock : Nat → ℚ) (timeout : Option ℚ) (auto_wait_timeout : ℚ) (fuel : Nat),
        image_find demoBigPattern timeout (some demoRect) engine captures clock
          auto_wait_timeout fuel = some (PyResult.ok none)) := by
  refine ⟨by with_unfolding_all decide, ?_, ?_⟩
  · intro p r
    unfold is_pattern_size_correct
    simp only [get_size_fst, get_size_snd]
    split_ifs with h1 h2 <;> simp <;> omega
  · intro engine captures clock timeout auto_wait_timeout fuel
    rfl

/-- C8: channel-depth selection is bimodal on the exact similarity value 0.99:
when the pattern similarity equals 0.99, `match_template` uses the color
images and `match_template_multiple` the RGB arrays for both needle and
haystack; for every other similarity value the grayscale images/arrays are
used. -/
theorem C8_channel_selection :
    ∀ (pattern : Pattern) (stack : ScreenshotImage),
    (pattern.similarity = 99 / 100 →
      mt_needle pattern = pattern.get_color_image
      ∧ mt_haystack pattern stack = stack.get_color_image
      ∧ mtm_needle pattern = pattern.get_rgb_array
      ∧ mtm_haystack pattern stack = stack.get_rgb_array)
    ∧ (pattern.similarity ≠ 99 / 100 →
      mt_needle pattern = pattern.get_gray_image
      ∧ mt_haystack pattern stack = stack.get_gray_image
      ∧ mtm_needle pattern = pattern.get_gray_array
      ∧ mtm_haystack pattern stack = stack.get_gray_array) := by
  intro pattern stack
  constructor
  · intro h
    unfold mt_needle mt_haystack mtm_needle mtm_haystack
    rw [if_pos h, if_pos h, if_pos h, if_pos h]
    exact ⟨rfl, rfl, rfl, rfl⟩
  · intro h
    unfold mt_needle mt_haystack mtm_needle mtm_haystack
    rw [if_neg h, if_neg h, if_neg h, if_neg h]
    exact ⟨rfl, rfl, rfl, rfl⟩

/-- C8 witness: `C8_channel_selection` applied to a pattern with similarity
exactly 0.99 (color/RGB arrays selected) and to a pattern with similarity 0.5
(grayscale selected). -/
theorem C8_channel_selection_witness :
    (mt_needle demoColorPattern = demoColorPattern.get_color_image
      ∧ mt_haystack demoColorPattern demoStack = demoStack.get_color_image
      ∧ mtm_needle demoColorPattern = demoColorPattern.get_rgb_array
      ∧ mtm_haystack demoColorPattern demoStack = demoStack.get_rgb_array)
    ∧ (mt_needle demoPattern = demoPattern.get_gray_image
      ∧ mt_haystack demoPattern demoStack = demoStack.get_gray_image
      ∧ mtm_needle demoPattern = demoPattern.get_gray_array
      ∧ mtm_haystack demoPattern demoStack = demoStack.get_gray_array) :=
  ⟨(C8_channel_selection demoColorPattern demoStack).1 (by with_unfolding_all decide),
   (C8_channel_selection demoPattern demoStack).2 (by with_unfolding_all decide)⟩

/-- C9: a capture failure (the `ScreenshotError` raised by the screenshot
collaborator) is caught inside the search call and never propagated:
`match_template` returns the sentinel point (-1, -1) and
`match_template_multiple` returns the empty sequence, for every engine,
pattern, region, threshold and fuel. -/
theorem C9_capture_failure_masked :
    ∀ (engine : Img → Img → Surface) (pattern : Pattern) (region : Option Rectangle)
      (threshold : ℚ) (fuel : Nat) (e : ScreenshotError),
    match_template engine pattern region (Except.error e) = Location.mk (-1) (-1)
    ∧ match_template_multiple engine pattern region (Except.error e) threshold fuel
        = some [] := by
  intro engine pattern region threshold fuel e
  exact ⟨rfl, rfl⟩

set_option maxRecDepth 10000 in
/-- C10 counterexample: the claim says that for a pattern of width 1 the
suppression window is empty.  It is not: suppressing around the found location
(1, 0) with a width-1, height-2 pattern on the 2-by-2 all-ones surface
overwrites the whole column 0 (x-range `[int(1 - 0.5), int(1 + 0.5)) = [0, 1)`),
so the surface changes — while the maximum's own column x = 1 is spared. -/
theorem C10_loop_termination_counterexample :
    suppress [[1, 1], [1, 1]] 1 0 1 2 ≠ [[1, 1], [1, 1]]
    ∧ getCell (suppress [[1, 1], [1, 1]] 1 0 1 2) 0 1 = some 1
    ∧ getCell (suppress [[1, 1], [1, 1]] 1 0 1 2) 0 0 ≠ some 1 := by
  with_unfolding_all decide

/-- C10 (amended): on a nonempty score surface, for every pattern whose width
and height are both at least 2 and every overlap threshold above the
suppression sentinel -10000, the extraction loop terminates — each accepting
iteration erases the current global-maximum cell (the window covers it and the
write puts it below the threshold), so fuel equal to the number of
above-threshold cells plus one suffices; whereas for a pattern of width 1 or
height 1 the suppression window never covers the current maximum cell (for
width 1 its x-range is `[sx - 1, sx)`, empty when `sx = 0`), so whenever the
maximum lies strictly between the thresholds the loop never terminates, for
any amount of fuel. -/
theorem C10_loop_termination_amended :
    (∀ (precision threshold : ℚ) (pattern : Pattern),
      2 ≤ pattern.width → 2 ≤ pattern.height → -10000 < threshold →
      ∀ (res : Surface) (acc : List Location), surfaceCells res ≠ [] →
      (multiLoop precision threshold pattern (surfaceCount threshold res + 1) res acc).isSome
        = true)
    ∧ (∀ (precision threshold : ℚ) (pattern : Pattern),
      pattern.width = 1 ∨ pattern.height = 1 → -10000 < threshold →
      ∀ (fuel : Nat) (res : Surface) (acc : List Location),
      surfaceCells res ≠ [] → threshold < maxScore res → maxScore res < precision →
      multiLoop precision threshold pattern fuel res acc = none) := by
  constructor
  · intro precision threshold pattern hw hh ht res acc hne
    exact multiLoop_isSome_of_fat precision threshold pattern hw hh ht _ res acc hne
      (le_refl _)
  · intro precision threshold pattern hwh ht fuel res acc hne h1 h2
    exact multiLoop_none_of_thin precision threshold pattern hwh ht fuel res acc hne h1 h2

/-- C10 witness: `C10_loop_termination_amended` at concrete inputs — with the
2-by-2 pattern `pat22` the loop on surface `[[1, 0], [0, 0]]` finishes within
`surfaceCount + 1` fuel, and with the 1-by-1 `demoPattern` the loop on `[[1]]`
(maximum 1 strictly between threshold 0 and precision 2) returns `none` even
with fuel 7. -/
theorem C10_loop_termination_witness :
    (multiLoop (7 / 10) 0 pat22 (surfaceCount 0 [[1, 0], [0, 0]] + 1)
        [[1, 0], [0, 0]] []).isSome = true
    ∧ multiLoop 2 0 demoPattern 7 [[1]] [] = none := by
  constructor
  · exact C10_loop_termination_amended.1 (7 / 10) 0 pat22 (by with_unfolding_all decide) (by with_unfolding_all decide)
      (by with_unfolding_all decide) [[1, 0], [0, 0]] [] (by with_unfolding_all decide)
  · exact C10_loop_termination_amended.2 2 0 demoPattern (Or.inl rfl) (by with_unfolding_all decide) 7 [[1]] []
      (by with_unfolding_all decide) (by with_unfolding_all decide) (by with_unfolding_all decide)

/-- C1 counterexample: the guard passes (1-by-1 pattern in a 1-by-1 region),
the single search attempt before the deadline finds the pattern at (0, 0), and
the deadline (timeout 1, clock advancing one second per reading) passes while
the pattern is still present — yet `image_vanish` returns the null result
`None`, not the boolean false claimed: `return None if pattern_found else
True` cannot produce False. -/
theorem C1_vanish_timeout_counterexample :
    match_template demoEngine demoPattern (some demoRect) (demoCaptures 0) = Location.mk 0 0
    ∧ image_vanish demoPattern (some 1) (some demoRect) demoEngine demoCaptures demoClock 5
        = some (PyResult.ok none)
    ∧ some (PyResult.ok (none : Option Bool)) ≠ some (PyResult.ok (some false)) := by
  with_unfolding_all decide

/-- C1 (amended): when the size guard passes and every search attempt still
finds the pattern (both returned coordinates differ from -1), a terminating
run of `image_vanish` returns `None` — the same null result used for guard
failure — at deadline expiry; and on no input whatsoever can `image_vanish`
return the boolean false: its only value-level results are `None` and
`True`. -/
theorem C1_vanish_timeout_amended :
    (∀ (engine : Img → Img → Surface) (pattern : Pattern) (r : Rectangle)
        (captures : Nat → Except ScreenshotError ScreenshotImage)
        (clock : Nat → ℚ) (t : ℚ) (fuel : Nat),
      pattern.width ≤ r.width → pattern.height ≤ r.height →
      (∀ k, (match_template engine pattern (some r) (captures k)).x ≠ -1
          ∧ (match_template engine pattern (some r) (captures k)).y ≠ -1) →
      ∀ res, image_vanish pattern (some t) (some r) engine captures clock fuel = some res →
        res = PyResult.ok none)
    ∧ (∀ (pattern : Pattern) (timeout : Option ℚ) (region : Option Rectangle)
        (engine : Img → Img → Surface)
        (captures : Nat → Except ScreenshotError ScreenshotImage)
        (clock : Nat → ℚ) (fuel : Nat) (res : PyResult (Option Bool)),
      image_vanish pattern timeout region engine captures clock fuel = some res →
        res ≠ PyResult.ok (some false)) := by
  constructor
  · intro engine pattern r captures clock t fuel h1 h2 hfound res hres
    have heq : image_vanish pattern (some t) (some r) engine captures clock fuel
        = match vanishLoop engine pattern (some r) captures clock (clock 0 + t)
              fuel 0 true (clock 0) with
          | none => none
          | some w => some (PyResult.ok w) := by
      unfold image_vanish
      rw [guard_ok_true h1 h2]
    rw [heq] at hres
    cases hv : vanishLoop engine pattern (some r) captures clock (clock 0 + t)
        fuel 0 true (clock 0) with
    | none =>
      rw [hv] at hres
      exact Option.noConfusion hres
    | some w =>
      rw [hv] at hres
      have hw := vanishLoop_found_none engine pattern (some r) captures clock (clock 0 + t)
        hfound fuel 0 (clock 0) w hv
      have h3 := Option.some.inj hres
      rw [← h3, hw]
  · intro pattern timeout region engine captures clock fuel res hres
    cases hg : is_pattern_size_correct pattern region with
    | raised e =>
      have heq : image_vanish pattern timeout region engine captures clock fuel
          = some (PyResult.raised e) := by
        unfold image_vanish
        rw [hg]
      rw [heq] at hres
      have h3 := Option.some.inj hres
      rw [← h3]
      simp
    | ok b =>
      cases b with
      | false =>
        have heq : image_vanish pattern timeout region engine captures clock fuel
            = some (PyResult.ok none) := by
          unfold image_vanish
          rw [hg]
        rw [heq] at hres
        have h3 := Option.some.inj hres
        rw [← h3]
        simp
      | true =>
        cases timeout with
        | none =>
          have heq : image_vanish pattern none region engine captures clock fuel
              = some (PyResult.raised PyErr.typeError) := by
            unfold image_vanish
            rw [hg]
          rw [heq] at hres
          have h3 := Option.some.inj hres
          rw [← h3]
          simp
        | some t =>
          have heq : image_vanish pattern (some t) region engine captures clock fuel
              = match vanishLoop engine pattern region captures clock (clock 0 + t)
                    fuel 0 true (clock 0) with
                | none => none
                | some w => some (PyResult.ok w) := by
            unfold image_vanish
            rw [hg]
          rw [heq] at hres
          cases hv : vanishLoop engine pattern region captures clock (clock 0 + t)
              fuel 0 true (clock 0) with
          | none =>
            rw [hv] at hres
            exact Option.noConfusion hres
          | some w =>
            rw [hv] at hres
            have h3 := Option.some.inj hres
            have hnf := vanishLoop_never_false engine pattern region captures clock
              (clock 0 + t) fuel 0 true (clock 0) w hv
            rw [← h3]
            simp only [ne_eq, PyResult.ok.injEq]
            exact hnf

/-- C1 witness: `C1_vanish_timeout_amended` at the concrete timing run of the
counterexample — the run returns `some (ok none)`, part (1) confirms that this
all-found run yields the null result, and part (2) confirms it is not the
boolean false. -/
theorem C1_vanish_timeout_witness :
    image_vanish demoPattern (some 1) (some demoRect) demoEngine demoCaptures demoClock 5
        = some (PyResult.ok none)
    ∧ PyResult.ok (none : Option Bool) ≠ PyResult.ok (some false)
    ∧ PyResult.ok (none : Option Bool) = PyResult.ok none := by
  have h : image_vanish demoPattern (some 1) (some demoRect) demoEngine demoCaptures
      demoClock 5 = some (PyResult.ok none) := by
    with_unfolding_all decide
  refine ⟨h, ?_, ?_⟩
  · exact C1_vanish_timeout_amended.2 demoPattern (some 1) (some demoRect) demoEngine
      demoCaptures demoClock 5 (PyResult.ok none) h
  · exact C1_vanish_timeout_amended.1 demoEngine demoPattern demoRect demoCaptures
      demoClock 1 5 (by with_unfolding_all decide) (by with_unfolding_all decide)
      (fun k =>
        (by with_unfolding_all decide :
          (match_template demoEngine demoPattern (some demoRect)
              (Except.ok demoStack)).x ≠ -1
          ∧ (match_template demoEngine demoPattern (some demoRect)
              (Except.ok demoStack)).y ≠ -1))
      (PyResult.ok none) h

/-- C5: whenever `match_template` returns a point other than the sentinel
(-1, -1): (1) the global maximum score of the correlation surface reached the
pattern's similarity threshold; and (2) when a region was supplied, provided
the capture and engine respect the expected geometry (the captured haystack
has the region's dimensions, the needle is nonempty and fits the haystack, and
the score surface has the matchTemplate dimensions (H - h + 1) rows of width
(W - w + 1)), the returned point is the engine's max-location translated by
the region's origin, and lies within
[region.x, region.x + region.width) × [region.y, region.y + region.height). -/
theorem C5_match_template_contract :
    (∀ (engine : Img → Img → Surface) (pattern : Pattern) (region : Option Rectangle)
        (stack : ScreenshotImage),
      match_template engine pattern region (Except.ok stack) ≠ Location.mk (-1) (-1) →
      pattern.similarity
        ≤ maxScore (engine (mt_haystack pattern stack) (mt_needle pattern)))
    ∧ (∀ (engine : Img → Img → Surface) (pattern : Pattern) (r : Rectangle)
        (stack : ScreenshotImage),
      1 ≤ (mt_needle pattern).width →
      (mt_needle pattern).width ≤ (mt_haystack pattern stack).width →
      1 ≤ (mt_needle pattern).height →
      (mt_needle pattern).height ≤ (mt_haystack pattern stack).height →
      (engine (mt_haystack pattern stack) (mt_needle pattern)).length
        = (mt_haystack pattern stack).height - (mt_needle pattern).height + 1 →
      (∀ row ∈ engine (mt_haystack pattern stack) (mt_needle pattern),
        row.length = (mt_haystack pattern stack).width - (mt_needle pattern).width + 1) →
      (mt_haystack pattern stack).width = r.width →
      (mt_haystack pattern stack).height = r.height →
      match_template engine pattern (some r) (Except.ok stack) ≠ Location.mk (-1) (-1) →
      match_template engine pattern (some r) (Except.ok stack)
          = Location.mk
              (((maxCell (engine (mt_haystack pattern stack) (mt_needle pattern))).2.1 : Int)
                + r.x)
              (((maxCell (engine (mt_haystack pattern stack) (mt_needle pattern))).2.2 : Int)
                + r.y)
        ∧ r.x ≤ (match_template engine pattern (some r) (Except.ok stack)).x
        ∧ (match_template engine pattern (some r) (Except.ok stack)).x < r.x + r.width
        ∧ r.y ≤ (match_template engine pattern (some r) (Except.ok stack)).y
        ∧ (match_template engine pattern (some r) (Except.ok stack)).y < r.y + r.height) := by
  constructor
  · intro engine pattern region stack hns
    rw [match_template_ok] at hns
    by_cases hlt : (minMaxLoc (engine (mt_haystack pattern stack) (mt_needle pattern))).2.1
        < pattern.similarity
    · rw [if_pos hlt] at hns
      exact absurd rfl hns
    · rw [minMaxLoc_max_val] at hlt
      exact le_of_not_lt hlt
  · intro engine pattern r stack hnw1 hnw2 hnh1 hnh2 hrows hcols hW hH hns
    by_cases hlt : (minMaxLoc (engine (mt_haystack pattern stack) (mt_needle pattern))).2.1
        < pattern.similarity
    · rw [match_template_ok, if_pos hlt] at hns
      exact absurd rfl hns
    · have heq : match_template engine pattern (some r) (Except.ok stack)
          = Location.mk
              (((maxCell (engine (mt_haystack pattern stack) (mt_needle pattern))).2.1 : Int)
                + r.x)
              (((maxCell (engine (mt_haystack pattern stack) (mt_needle pattern))).2.2 : Int)
                + r.y) := by
        rw [match_template_ok, if_neg hlt]
      have hr1 : 1 ≤ (engine (mt_haystack pattern stack) (mt_needle pattern)).length := by
        rw [hrows]
        omega
      obtain ⟨row0, hrow0⟩ :
          ∃ row0, (engine (mt_haystack pattern stack) (mt_needle pattern)).get? 0
            = some row0 := by
        cases hr0 : (engine (mt_haystack pattern stack) (mt_needle pattern)).get? 0 with
        | none =>
          rw [List.get?_eq_none] at hr0
          omega
        | some row0 => exact ⟨row0, rfl⟩
      have hrow0len := hcols row0 (List.get?_mem hrow0)
      obtain ⟨v0, hv0⟩ : ∃ v0, row0.get? 0 = some v0 := by
        cases hx0 : row0.get? 0 with
        | none =>
          rw [List.get?_eq_none] at hx0
          omega
        | some v0 => exact ⟨v0, rfl⟩
      have hne : surfaceCells (engine (mt_haystack pattern stack) (mt_needle pattern)) ≠ [] :=
        surfaceCells_ne_nil (getCell_eq_some.mpr ⟨row0, hrow0, hv0⟩)
      have hmc := maxCell_getCell hne
      obtain ⟨rowm, hrm, hxm⟩ := getCell_eq_some.mp hmc
      have hmy := lt_length_of_get?_eq_some hrm
      have hmx := lt_length_of_get?_eq_some hxm
      have hrowmlen := hcols rowm (List.get?_mem hrm)
      rw [hrowmlen] at hmx
      rw [hrows] at hmy
      refine ⟨heq, ?_, ?_, ?_, ?_⟩ <;> rw [heq]
      · show r.x ≤ ((maxCell (engine (mt_haystack pattern stack) (mt_needle pattern))).2.1
            : Int) + r.x
        omega
      · show ((maxCell (engine (mt_haystack pattern stack) (mt_needle pattern))).2.1 : Int)
            + r.x < r.x + r.width
        omega
      · show r.y ≤ ((maxCell (engine (mt_haystack pattern stack) (mt_needle pattern))).2.2
            : Int) + r.y
        omega
      · show ((maxCell (engine (mt_haystack pattern stack) (mt_needle pattern))).2.2 : Int)
            + r.y < r.y + r.height
        omega

/-- C5 witness: `C5_match_template_contract` at a concrete search — a 1-by-1
needle, a 2-by-2 haystack captured for the region (2, 3, 2, 2), and a 2-by-2
score surface with maximum 1 at the origin: the score reached the similarity
0.5, the non-sentinel point is (0 + 2, 0 + 3) = (2, 3), and it lies within
[2, 4) × [3, 5). -/
theorem C5_match_template_contract_witness :
    (pat5.similarity ≤ maxScore (engine5 (mt_haystack pat5 stack5) (mt_needle pat5))
      ∧ match_template engine5 pat5 (some rect5) (Except.ok stack5) = Location.mk 2 3)
    ∧ rect5.x ≤ (match_template engine5 pat5 (some rect5) (Except.ok stack5)).x
    ∧ (match_template engine5 pat5 (some rect5) (Except.ok stack5)).x
        < rect5.x + rect5.width
    ∧ rect5.y ≤ (match_template engine5 pat5 (some rect5) (Except.ok stack5)).y
    ∧ (match_template engine5 pat5 (some rect5) (Except.ok stack5)).y
        < rect5.y + rect5.height := by
  have hns : match_template engine5 pat5 (some rect5) (Except.ok stack5)
      ≠ Location.mk (-1) (-1) := by
    with_unfolding_all decide
  have h := C5_match_template_contract.2 engine5 pat5 rect5 stack5
    (by with_unfolding_all decide) (by with_unfolding_all decide)
    (by with_unfolding_all decide) (by with_unfolding_all decide)
    (by with_unfolding_all decide) (by with_unfolding_all decide)
    (by with_unfolding_all decide) (by with_unfolding_all decide) hns
  have h1 := C5_match_template_contract.1 engine5 pat5 (some rect5) stack5 hns
  refine ⟨⟨h1, ?_⟩, h.2.1, h.2.2.1, h.2.2.2.1, h.2.2.2.2⟩
  rw [h.1]
  with_unfolding_all decide

/-- C6: the locations returned by `match_template_multiple` are in
haystack-local (score-surface) coordinates: (1) the result does not depend on
the region argument at all (given the same capture outcome), so the region's
origin is never added; (2) in contrast, a non-sentinel `match_template` result
for a supplied region is exactly the region-free result translated by the
region's origin; (3) concretely, with a region at origin (10, 20) the
multi-match search reports the raw surface point (0, 0) while the single-match
search reports the absolute point (10, 20). -/
theorem C6_multi_results_haystack_local :
    (∀ (engine : Img → Img → Surface) (pattern : Pattern) (r : Rectangle)
        (capture : Except ScreenshotError ScreenshotImage) (threshold : ℚ) (fuel : Nat),
      match_template_multiple engine pattern (some r) capture threshold fuel
        = match_template_multiple engine pattern none capture threshold fuel)
    ∧ (∀ (engine : Img → Img → Surface) (pattern : Pattern) (r : Rectangle)
        (capture : Except ScreenshotError ScreenshotImage),
      match_template engine pattern (some r) capture ≠ Location.mk (-1) (-1) →
      match_template engine pattern (some r) capture
        = Location.mk ((match_template engine pattern none capture).x + r.x)
            ((match_template engine pattern none capture).y + r.y))
    ∧ (match_template_multiple contrastEngine pat22 (some demoRect2) (Except.ok demoStack)
          (1 / 2) 5 = some [Location.mk 0 0]
      ∧ match_template contrastEngine pat22 (some demoRect2) (Except.ok demoStack)
          = Location.mk 10 20) := by
  refine ⟨?_, ?_, by with_unfolding_all decide⟩
  · intro engine pattern r capture threshold fuel
    rfl
  · intro engine pattern r capture hns
    cases capture with
    | error e => exact absurd rfl hns
    | ok stack =>
      by_cases hlt : (minMaxLoc (engine (mt_haystack pattern stack) (mt_needle pattern))).2.1
          < pattern.similarity
      · rw [match_template_ok, if_pos hlt] at hns
        exact absurd rfl hns
      · rw [match_template_ok engine pattern (some r) stack, if_neg hlt,
          match_template_ok engine pattern none stack, if_neg hlt]

/-- C6 witness: `C6_multi_results_haystack_local` part (2) at the contrast
scenario — the non-sentinel single-match result for the region at (10, 20) is
the region-free result shifted by (10, 20). -/
theorem C6_multi_results_haystack_local_witness :
    match_template contrastEngine pat22 (some demoRect2) (Except.ok demoStack)
        ≠ Location.mk (-1) (-1)
    ∧ match_template contrastEngine pat22 (some demoRect2) (Except.ok demoStack)
        = Location.mk
            ((match_template contrastEngine pat22 none (Except.ok demoStack)).x
              + demoRect2.x)
            ((match_template contrastEngine pat22 none (Except.ok demoStack)).y
              + demoRect2.y) := by
  have hns : match_template contrastEngine pat22 (some demoRect2) (Except.ok demoStack)
      ≠ Location.mk (-1) (-1) := by
    with_unfolding_all decide
  exact ⟨hns, C6_multi_results_haystack_local.2.1 contrastEngine pat22 demoRect2
    (Except.ok demoStack) hns⟩

end IrisSpec
